import Mathlib

/-!
# Restaurant directory service: cache-aside handlers

A shallow embedding of `src/service-files/index.js`.  The handlers are
sequential steps on a state made of the DynamoDB table and the memcached
contents; `USE_CACHE` is the process-wide flag read from the environment.
Ratings are exact rationals.  The adapters do not fail (no I/O errors), so the
`catch` branches of the handlers are not taken.
-/

namespace RestaurantService

/-! ## Data model -/

/-- An item of the table: the attributes written by `POST /restaurants`
(`name`, `cuisine`, `region`, `rating`) and the attribute `numRatings`, which
is absent until the first rating is stored. -/
structure Restaurant where
  name : String
  cuisine : String
  region : String
  rating : ℚ
  numRatings : Option ℕ
deriving DecidableEq

/-- The body of `POST /restaurants`. -/
structure NewRestaurant where
  name : String
  cuisine : String
  region : String
deriving DecidableEq

/-- The object `{ name, cuisine, rating, region }` sent back to the client. -/
structure RestaurantView where
  name : String
  cuisine : String
  rating : ℚ
  region : String
deriving DecidableEq

/-- The JSON bodies the handlers send. -/
inductive Body where
  /-- The body `{ success: true }`. -/
  | success
  /-- The body `{ success: false, message }`. -/
  | failure (message : String)
  /-- A single restaurant view. -/
  | restaurant (view : RestaurantView)
  /-- An array of restaurant views. -/
  | restaurants (views : List RestaurantView)
deriving DecidableEq

/-- An HTTP response: status code and body. -/
structure Response where
  status : ℕ
  body : Body
deriving DecidableEq

/-! ## DynamoDB document client (`ddb`)

The table is the list of its items in scan order.  Every operation treats
`name` as the key, so the results below hold whatever the list is. -/

/-- The contents of the table `TABLE_NAME`. -/
abbrev Table := List Restaurant

/-- The call `ddb.get({Key: {name}})`: the item stored under the key, if any. -/
def ddbGet (t : Table) (name : String) : Option Restaurant :=
  t.find? (fun it => it.name = name)

/-- The call `ddb.put({Item})`: the item replaces whatever the key held. -/
def ddbPut (t : Table) (item : Restaurant) : Table :=
  item :: t.filter (fun it => it.name ≠ item.name)

/-- The call `ddb.delete({Key: {name}}, callback)`.  No `ConditionExpression`
is passed, so DynamoDB's DeleteItem is idempotent: it removes the item when
there is one and reports no error when there is none.  The first component is
the `err` handed to the callback. -/
def ddbDelete (t : Table) (name : String) : Option String × Table :=
  (none, t.filter (fun it => it.name ≠ name))

/-- The call `ddb.update` with `UpdateExpression: "set rating = :r, numRatings = :n"`:
the two attributes of the item under the key are overwritten.  (The handler
reaches this call only after `ddb.get` found the item.) -/
def ddbUpdate (t : Table) (name : String) (r : ℚ) (n : ℕ) : Table :=
  t.map (fun it => if it.name = name then { it with rating := r, numRatings := some n } else it)

/-- The call `ddb.scan` with a filter expression, for a table that one scan
page holds: the items that pass the filter, in scan order. -/
def ddbScan (t : Table) (p : Restaurant → Bool) : List Restaurant :=
  t.filter p

/-! ## Cache adapter (`memcachedActions`) -/

/-- Modelled from the spec: the contents of the cache behind
`model/restaurantsMemcachedActions`, a module that is not among the sources.
The spec (§2, §6) describes it as a mirror from restaurant name to full
record, with `get`, `set` and `delete` by name and no eviction. -/
abbrev Cache := List (String × Restaurant)

/-- Modelled from the spec: `memcachedActions.getRestaurants(key)`, the cache
adapter's `get(name) -> record | absent` (§6). -/
def getRestaurants (c : Cache) (key : String) : Option Restaurant :=
  (c.find? (fun kv => kv.1 = key)).map (fun kv => kv.2)

/-- Modelled from the spec: `memcachedActions.addRestaurants(key, value)`, the
cache adapter's `set(name, record)`, overwriting any prior entry (§6, §4.4). -/
def addRestaurants (c : Cache) (key : String) (value : Restaurant) : Cache :=
  (key, value) :: c.filter (fun kv => kv.1 ≠ key)

/-- Modelled from the spec: `memcachedActions.deleteRestaurants(key)`, the
cache adapter's `delete(name)` (§6). -/
def deleteRestaurants (c : Cache) (key : String) : Cache :=
  c.filter (fun kv => kv.1 ≠ key)

/-- The two external resources the handlers act on. -/
structure State where
  table : Table
  cache : Cache
deriving DecidableEq

/-- The state with an empty table and an empty cache. -/
def State.empty : State := ⟨[], []⟩

/-! ## Handlers for single restaurants -/

/-- The handler `app.post('/restaurants')`. -/
def postRestaurants (USE_CACHE : Bool) (s : State) (restaurant : NewRestaurant) :
    Response × State :=
  if USE_CACHE && (getRestaurants s.cache restaurant.name).isSome then
    (⟨409, .failure "Restaurant already exists"⟩, s)
  else
    match ddbGet s.table restaurant.name with
    | some _ => (⟨409, .failure "Restaurant already exists"⟩, s)
    | none =>
      let item : Restaurant :=
        { name := restaurant.name, cuisine := restaurant.cuisine,
          region := restaurant.region, rating := 0, numRatings := none }
      let table := ddbPut s.table item
      let cache := if USE_CACHE then addRestaurants s.cache restaurant.name item else s.cache
      (⟨200, .success⟩, ⟨table, cache⟩)

/-- The handler `app.get('/restaurants/:restaurantName')`. -/
def getRestaurant (USE_CACHE : Bool) (s : State) (restaurantName : String) :
    Response × State :=
  match (if USE_CACHE then getRestaurants s.cache restaurantName else none) with
  | some cacheResponse =>
    (⟨200, .restaurant ⟨cacheResponse.name, cacheResponse.cuisine,
        cacheResponse.rating, cacheResponse.region⟩⟩, s)
  | none =>
    match ddbGet s.table restaurantName with
    | some item => (⟨200, .restaurant ⟨item.name, item.cuisine, item.rating, item.region⟩⟩, s)
    | none => (⟨404, .failure "Restaurant not found"⟩, s)

/-- The handler `app.delete('/restaurants/:restaurantName')`. -/
def deleteRestaurant (USE_CACHE : Bool) (s : State) (restaurantName : String) :
    Response × State :=
  let cache := if USE_CACHE then deleteRestaurants s.cache restaurantName else s.cache
  match ddbDelete s.table restaurantName with
  | (some _, table) => (⟨404, .failure "Restaurant not found"⟩, ⟨table, cache⟩)
  | (none, table) => (⟨200, .success⟩, ⟨table, cache⟩)

/-- The expression `data.Item.rating || 0` on a number. -/
def ratingOrZero (r : ℚ) : ℚ := if r = 0 then 0 else r

/-- The expression `data.Item.numRatings || 0`: absent and zero both give 0. -/
def numRatingsOrZero : Option ℕ → ℕ
  | none => 0
  | some n => if n = 0 then 0 else n

/-- The handler `app.post('/restaurants/rating')` for a numeric `rating`. -/
def postRestaurantsRating (USE_CACHE : Bool) (s : State) (restaurantName : String)
    (rating : ℚ) : Response × State :=
  match ddbGet s.table restaurantName with
  | none => (⟨404, .failure "Restaurant not found"⟩, s)
  | some item =>
    let currentRating := ratingOrZero item.rating
    let numRatings := numRatingsOrZero item.numRatings
    let updatedRating : ℚ := ((currentRating * numRatings) + rating) / (numRatings + 1)
    let updatedNumRatings := numRatings + 1
    let table := ddbUpdate s.table restaurantName updatedRating updatedNumRatings
    let cache :=
      if USE_CACHE then
        addRestaurants s.cache item.name
          { item with rating := updatedRating, numRatings := some updatedNumRatings }
      else s.cache
    (⟨200, .success⟩, ⟨table, cache⟩)

/-! ## Query handlers -/

/-- The query parameter `req.query.limit`: absent (or the empty string, which
is falsy), or a non-empty string given by the value `parseInt` returns on it
(`none` for `NaN`).  An integer `L` written in decimal is `supplied (some L)`. -/
inductive LimitParam where
  /-- No usable `limit` parameter in the query string. -/
  | absent
  /-- A non-empty `limit` string and what `parseInt` makes of it. -/
  | supplied (parsed : Option ℤ)
deriving DecidableEq

/-- The block "Validate and adjust limit" followed by the truthiness test of
`limit ? ... : ...`: the bound handed to `slice`, or `none` when the whole
array is sent. -/
def adjustLimit : LimitParam → Option ℤ
  | .absent => none
  | .supplied none => none
  | .supplied (some n) =>
    let limit := if n < 10 then 10 else if n > 100 then 100 else n
    if limit = 0 then none else some limit

/-- The call `restaurants.slice(0, limit)` of JavaScript arrays; a negative
end counts from the back. -/
def slice0 (restaurants : List Restaurant) (limit : ℤ) : List Restaurant :=
  if limit < 0 then restaurants.take (restaurants.length + limit).toNat
  else restaurants.take limit.toNat

/-- The comparator `(a, b) => b.rating - a.rating` read as an order: `a` may
stand before `b`. -/
def ratingDesc (a b : Restaurant) : Prop := b.rating ≤ a.rating

instance ratingDesc.decidable : DecidableRel ratingDesc :=
  fun a b => inferInstanceAs (Decidable (b.rating ≤ a.rating))

/-- The call `restaurants.sort((a, b) => b.rating - a.rating)`: a stable sort
by rating, highest first. -/
def sortByRating (restaurants : List Restaurant) : List Restaurant :=
  restaurants.insertionSort ratingDesc

/-- The mapping "Format response" of the query handlers. -/
def formatRestaurant (restaurant : Restaurant) : RestaurantView :=
  ⟨restaurant.name, restaurant.cuisine, restaurant.rating, restaurant.region⟩

/-- The common tail of the three query handlers: sort, limit, format, send. -/
def sendRestaurants (items : List Restaurant) (limit : LimitParam) : Response :=
  let restaurants := sortByRating items
  let limitedRestaurants :=
    match adjustLimit limit with
    | some l => slice0 restaurants l
    | none => restaurants
  ⟨200, .restaurants (limitedRestaurants.map formatRestaurant)⟩

/-- The handler `app.get('/restaurants/cuisine/:cuisine')`. -/
def getRestaurantsByCuisine (s : State) (cuisine : String) (limit : LimitParam) :
    Response × State :=
  (sendRestaurants (ddbScan s.table (fun it => it.cuisine = cuisine)) limit, s)

/-- The handler `app.get('/restaurants/region/:region')`. -/
def getRestaurantsByRegion (s : State) (region : String) (limit : LimitParam) :
    Response × State :=
  (sendRestaurants (ddbScan s.table (fun it => it.region = region)) limit, s)

/-- The handler `app.get('/restaurants/region/:region/cuisine/:cuisine')`. -/
def getRestaurantsByRegionCuisine (s : State) (region cuisine : String)
    (limit : LimitParam) : Response × State :=
  (sendRestaurants
    (ddbScan s.table (fun it => it.region = region && it.cuisine = cuisine)) limit, s)

/-! ## Sequential execution -/

/-- One request to the service. -/
inductive Op where
  /-- A request `POST /restaurants`. -/
  | create (restaurant : NewRestaurant)
  /-- A request `GET /restaurants/:restaurantName`. -/
  | get (restaurantName : String)
  /-- A request `DELETE /restaurants/:restaurantName`. -/
  | delete (restaurantName : String)
  /-- A request `POST /restaurants/rating`. -/
  | rate (restaurantName : String) (rating : ℚ)
  /-- A request `GET /restaurants/cuisine/:cuisine`. -/
  | byCuisine (cuisine : String) (limit : LimitParam)
  /-- A request `GET /restaurants/region/:region`. -/
  | byRegion (region : String) (limit : LimitParam)
  /-- A request `GET /restaurants/region/:region/cuisine/:cuisine`. -/
  | byRegionCuisine (region cuisine : String) (limit : LimitParam)

/-- The service handles one request. -/
def step (USE_CACHE : Bool) (s : State) : Op → Response × State
  | .create restaurant => postRestaurants USE_CACHE s restaurant
  | .get restaurantName => getRestaurant USE_CACHE s restaurantName
  | .delete restaurantName => deleteRestaurant USE_CACHE s restaurantName
  | .rate restaurantName rating => postRestaurantsRating USE_CACHE s restaurantName rating
  | .byCuisine cuisine limit => getRestaurantsByCuisine s cuisine limit
  | .byRegion region limit => getRestaurantsByRegion s region limit
  | .byRegionCuisine region cuisine limit => getRestaurantsByRegionCuisine s region cuisine limit

/-- The service handles a list of requests one at a time: the responses in
order and the final state. -/
def run (USE_CACHE : Bool) : State → List Op → List Response × State
  | s, [] => ([], s)
  | s, op :: ops =>
    let r := step USE_CACHE s op
    let rest := run USE_CACHE r.2 ops
    (r.1 :: rest.1, rest.2)

/-- The sorted-by-rating property of a response array: ratings never increase. -/
def SortedByRating (views : List RestaurantView) : Prop :=
  views.Pairwise (fun a b => b.rating ≤ a.rating)

/-- The array a response carries, empty for the other bodies. -/
def Response.views (r : Response) : List RestaurantView :=
  match r.body with
  | .restaurants vs => vs
  | _ => []

/-- The clamp of the spec: below 10 raised to 10, above 100 lowered to 100. -/
def clamp (l lo hi : ℤ) : ℤ := if l < lo then lo else if l > hi then hi else l

/-! ## Invariants used in the proofs -/

/-- The cache and the table answer every point lookup alike. -/
def Mirror (s : State) : Prop :=
  ∀ k, getRestaurants s.cache k = ddbGet s.table k

/-- The state holds the created restaurant with `n` ratings summing to `total`;
with the cache flag on, the cache holds the same record. -/
def Tracks (USE_CACHE : Bool) (s : State) (new : NewRestaurant) (n : ℕ) (total : ℚ) : Prop :=
  ∃ item, ddbGet s.table new.name = some item ∧
    (USE_CACHE = true → getRestaurants s.cache new.name = some item) ∧
    item.name = new.name ∧ item.cuisine = new.cuisine ∧ item.region = new.region ∧
    item.numRatings.getD 0 = n ∧ item.rating * n = total ∧
    (n = 0 → item.rating = 0) ∧ (0 < n → item.numRatings = some n)

instance ratingDesc.isTotal : IsTotal Restaurant ratingDesc :=
  ⟨fun a b => le_total b.rating a.rating⟩

instance ratingDesc.isTrans : IsTrans Restaurant ratingDesc :=
  ⟨fun _ _ _ hab hbc => le_trans hbc hab⟩


/-! ## Lookups after table and cache operations -/

theorem ddbGet_name {t : Table} {k : String} {it : Restaurant}
    (h : ddbGet t k = some it) : it.name = k := by
  have := List.find?_some h
  simpa using this

theorem ddbGet_filter (t : Table) (n k : String) :
    ddbGet (t.filter (fun it => it.name ≠ n)) k = if k = n then none else ddbGet t k := by
  induction t with
  | nil => simp [ddbGet]
  | cons a t ih =>
    unfold ddbGet at ih ⊢
    by_cases ha : a.name = n
    · by_cases hk : k = n
      · simp_all [List.filter_cons, List.find?_cons]
      · have : ¬ a.name = k := fun h => hk (by rw [← h, ha])
        simp_all [List.filter_cons, List.find?_cons]
    · by_cases hak : a.name = k
      · have : ¬ k = n := fun h => ha (by rw [hak, h])
        simp_all [List.filter_cons, List.find?_cons]
      · simp_all [List.filter_cons, List.find?_cons]

theorem ddbGet_ddbPut (t : Table) (item : Restaurant) (k : String) :
    ddbGet (ddbPut t item) k = if k = item.name then some item else ddbGet t k := by
  have h := ddbGet_filter t item.name k
  unfold ddbGet at h ⊢
  unfold ddbPut
  by_cases hk : k = item.name
  · simp [hk, List.find?_cons]
  · have : ¬ item.name = k := fun h => hk h.symm
    simp_all [List.find?_cons]

theorem ddbGet_ddbDelete (t : Table) (n k : String) :
    ddbGet (ddbDelete t n).2 k = if k = n then none else ddbGet t k :=
  ddbGet_filter t n k

theorem ddbGet_ddbUpdate (t : Table) (n : String) (r : ℚ) (c : ℕ) (k : String) :
    ddbGet (ddbUpdate t n r c) k =
      if k = n then (ddbGet t n).map (fun it => { it with rating := r, numRatings := some c })
      else ddbGet t k := by
  induction t with
  | nil => simp [ddbGet, ddbUpdate]
  | cons a t ih =>
    unfold ddbGet ddbUpdate at ih ⊢
    by_cases ha : a.name = n
    · by_cases hk : k = n
      · simp_all [List.find?_cons]
      · have : ¬ a.name = k := fun h => hk (by rw [← h, ha])
        simp_all [List.find?_cons]
    · by_cases hak : a.name = k
      · have : ¬ k = n := fun h => ha (by rw [hak, h])
        simp_all [List.find?_cons]
      · simp_all [List.find?_cons]

theorem getRestaurants_filter (c : Cache) (n k : String) :
    getRestaurants (c.filter (fun kv => kv.1 ≠ n)) k =
      if k = n then none else getRestaurants c k := by
  induction c with
  | nil => simp [getRestaurants]
  | cons a c ih =>
    unfold getRestaurants at ih ⊢
    by_cases ha : a.1 = n
    · by_cases hk : k = n
      · simp_all [List.filter_cons, List.find?_cons]
      · have : ¬ a.1 = k := fun h => hk (by rw [← h, ha])
        simp_all [List.filter_cons, List.find?_cons]
    · by_cases hak : a.1 = k
      · have : ¬ k = n := fun h => ha (by rw [hak, h])
        simp_all [List.filter_cons, List.find?_cons]
      · simp_all [List.filter_cons, List.find?_cons]

theorem getRestaurants_addRestaurants (c : Cache) (n : String) (v : Restaurant) (k : String) :
    getRestaurants (addRestaurants c n v) k = if k = n then some v else getRestaurants c k := by
  have h := getRestaurants_filter c n k
  unfold getRestaurants at h ⊢
  unfold addRestaurants
  by_cases hk : k = n
  · simp [hk, List.find?_cons]
  · have : ¬ n = k := fun h => hk h.symm
    simp_all [List.find?_cons]

theorem getRestaurants_deleteRestaurants (c : Cache) (n k : String) :
    getRestaurants (deleteRestaurants c n) k = if k = n then none else getRestaurants c k :=
  getRestaurants_filter c n k


/-! ## The cache mirrors the table -/

theorem mirror_empty : Mirror State.empty := by
  intro k
  simp [State.empty, getRestaurants, ddbGet]

theorem step_mirror (s : State) (op : Op) (h : Mirror s) : Mirror (step true s op).2 := by
  cases op with
  | create restaurant =>
    intro k
    have hn := h restaurant.name
    simp only [step, postRestaurants]
    cases hg : ddbGet s.table restaurant.name with
    | some it => simpa [hn, hg] using h k
    | none =>
      simp [hn, hg, getRestaurants_addRestaurants, ddbGet_ddbPut, h k]
  | get restaurantName =>
    intro k
    simp only [step, getRestaurant]
    split
    · exact h k
    · split <;> exact h k
  | delete restaurantName =>
    intro k
    have hd := ddbGet_ddbDelete s.table restaurantName k
    simp only [step, deleteRestaurant, ddbDelete] at hd ⊢
    simp only [if_true, getRestaurants_deleteRestaurants, hd, h k]
  | rate restaurantName rating =>
    intro k
    simp only [step, postRestaurantsRating]
    cases hg : ddbGet s.table restaurantName with
    | none => exact h k
    | some it =>
      have hname := ddbGet_name hg
      simp [getRestaurants_addRestaurants, ddbGet_ddbUpdate, hname, hg, h k]
  | byCuisine cuisine limit => exact h
  | byRegion region limit => exact h
  | byRegionCuisine region cuisine limit => exact h

theorem run_mirror (ops : List Op) (s : State) (h : Mirror s) : Mirror (run true s ops).2 := by
  induction ops generalizing s with
  | nil => exact h
  | cons op ops ih => exact ih _ (step_mirror s op h)

/-- With a mirroring cache, a request handled with the cache gives the response
and the table it gives without the cache. -/
theorem step_cache_transparent (s s' : State) (op : Op) (h : Mirror s)
    (ht : s'.table = s.table) :
    (step true s op).1 = (step false s' op).1 ∧
      (step true s op).2.table = (step false s' op).2.table := by
  cases op with
  | create restaurant =>
    have hn := h restaurant.name
    simp only [step, postRestaurants, ht]
    cases hg : ddbGet s.table restaurant.name <;> simp [hn, hg, ht]
  | get restaurantName =>
    have hn := h restaurantName
    simp only [step, getRestaurant, ht]
    cases hg : ddbGet s.table restaurantName <;> simp [hn, hg, ht]
  | delete restaurantName =>
    simp [step, deleteRestaurant, ddbDelete, ht]
  | rate restaurantName rating =>
    simp only [step, postRestaurantsRating, ht]
    cases hg : ddbGet s.table restaurantName <;> simp [ht]
  | byCuisine cuisine limit => simp [step, getRestaurantsByCuisine, ht]
  | byRegion region limit => simp [step, getRestaurantsByRegion, ht]
  | byRegionCuisine region cuisine limit => simp [step, getRestaurantsByRegionCuisine, ht]

theorem run_cache_transparent (ops : List Op) (s s' : State) (h : Mirror s)
    (ht : s'.table = s.table) :
    (run true s ops).1 = (run false s' ops).1 ∧
      (run true s ops).2.table = (run false s' ops).2.table := by
  induction ops generalizing s s' with
  | nil => simp [run, ht]
  | cons op ops ih =>
    obtain ⟨h1, h2⟩ := step_cache_transparent s s' op h ht
    obtain ⟨h3, h4⟩ := ih _ _ (step_mirror s op h) h2.symm
    simp [run, h1, h3, h4]


/-! ## Single handlers, unfolded -/

theorem postRestaurants_ok (USE_CACHE : Bool) (s : State) (restaurant : NewRestaurant)
    (h : (postRestaurants USE_CACHE s restaurant).1.status = 200) :
    ddbGet s.table restaurant.name = none ∧
      (postRestaurants USE_CACHE s restaurant).2 =
        ⟨ddbPut s.table ⟨restaurant.name, restaurant.cuisine, restaurant.region, 0, none⟩,
          if USE_CACHE then
            addRestaurants s.cache restaurant.name
              ⟨restaurant.name, restaurant.cuisine, restaurant.region, 0, none⟩
          else s.cache⟩ := by
  unfold postRestaurants at h ⊢
  split at h
  · simp at h
  · rename_i hc
    cases hg : ddbGet s.table restaurant.name with
    | some it => simp [hg] at h
    | none => simp [hc]

theorem deleteRestaurant_eq (USE_CACHE : Bool) (s : State) (restaurantName : String) :
    deleteRestaurant USE_CACHE s restaurantName =
      (⟨200, .success⟩,
        ⟨(ddbDelete s.table restaurantName).2,
          if USE_CACHE then deleteRestaurants s.cache restaurantName else s.cache⟩) := by
  simp [deleteRestaurant, ddbDelete]

/-! ## A created restaurant under a run of ratings -/

theorem ratingOrZero_eq (r : ℚ) : ratingOrZero r = r := by
  unfold ratingOrZero
  split <;> simp_all

theorem numRatingsOrZero_eq (n : Option ℕ) : numRatingsOrZero n = n.getD 0 := by
  cases n with
  | none => rfl
  | some n =>
    unfold numRatingsOrZero
    split <;> simp_all

theorem postRestaurantsRating_found (USE_CACHE : Bool) (s : State) (name : String) (r : ℚ)
    (item : Restaurant) (hg : ddbGet s.table name = some item) :
    postRestaurantsRating USE_CACHE s name r =
      (⟨200, .success⟩,
        ⟨ddbUpdate s.table name
            ((item.rating * (item.numRatings.getD 0 : ℕ) + r) / ((item.numRatings.getD 0 : ℕ) + 1))
            (item.numRatings.getD 0 + 1),
          if USE_CACHE then
            addRestaurants s.cache name
              { item with
                rating :=
                  (item.rating * (item.numRatings.getD 0 : ℕ) + r) /
                    ((item.numRatings.getD 0 : ℕ) + 1)
                numRatings := some (item.numRatings.getD 0 + 1) }
          else s.cache⟩) := by
  simp [postRestaurantsRating, hg, ratingOrZero_eq, numRatingsOrZero_eq, ddbGet_name hg]

theorem tracks_create (USE_CACHE : Bool) (s : State) (new : NewRestaurant)
    (h : (postRestaurants USE_CACHE s new).1.status = 200) :
    Tracks USE_CACHE (postRestaurants USE_CACHE s new).2 new 0 0 := by
  obtain ⟨_, hs⟩ := postRestaurants_ok USE_CACHE s new h
  rw [hs]
  refine ⟨⟨new.name, new.cuisine, new.region, 0, none⟩, ?_, ?_, rfl, rfl, rfl, rfl, ?_, ?_, ?_⟩
  · simp [ddbGet_ddbPut]
  · intro hc
    simp [hc, getRestaurants_addRestaurants]
  · simp
  · simp
  · simp

theorem tracks_rate (USE_CACHE : Bool) (s : State) (new : NewRestaurant) (n : ℕ) (total r : ℚ)
    (h : Tracks USE_CACHE s new n total) :
    (postRestaurantsRating USE_CACHE s new.name r).1 = ⟨200, .success⟩ ∧
      Tracks USE_CACHE (postRestaurantsRating USE_CACHE s new.name r).2 new (n + 1)
        (total + r) := by
  obtain ⟨item, hg, _, hname, hcu, hre, hn, ht, _, _⟩ := h
  rw [postRestaurantsRating_found USE_CACHE s new.name r item hg]
  refine ⟨rfl, ⟨{ item with
      rating := (item.rating * (item.numRatings.getD 0 : ℕ) + r) /
        ((item.numRatings.getD 0 : ℕ) + 1)
      numRatings := some (item.numRatings.getD 0 + 1) }, ?_, ?_, hname, hcu, hre, ?_, ?_, ?_, ?_⟩⟩
  · simp [ddbGet_ddbUpdate, hg]
  · intro hc
    simp [hc, getRestaurants_addRestaurants]
  · simp [hn]
  · have hpos : ((n : ℚ) + 1) ≠ 0 := by positivity
    simp only [hn]
    push_cast
    rw [div_mul_cancel₀ _ hpos, ht]
  · intro h0
    omega
  · intro _
    simp [hn]

theorem tracks_run (USE_CACHE : Bool) (new : NewRestaurant) (rs : List ℚ) (s : State) (n : ℕ)
    (total : ℚ) (h : Tracks USE_CACHE s new n total) :
    (run USE_CACHE s (rs.map (Op.rate new.name))).1 = rs.map (fun _ => ⟨200, .success⟩) ∧
      Tracks USE_CACHE (run USE_CACHE s (rs.map (Op.rate new.name))).2 new (n + rs.length)
        (total + rs.sum) := by
  induction rs generalizing s n total with
  | nil => simpa [run] using h
  | cons r rs ih =>
    obtain ⟨h1, h2⟩ := tracks_rate USE_CACHE s new n total r h
    obtain ⟨h3, h4⟩ := ih _ _ _ h2
    refine ⟨by simp [run, step, h1, h3], ?_⟩
    have e1 : n + (r :: rs).length = n + 1 + rs.length := by simp; omega
    have e2 : total + (r :: rs).sum = total + r + rs.sum := by simp; ring
    rw [e1, e2]
    simpa [run, step] using h4


/-! ## Query handlers -/

theorem sortedByRating_format (l : List Restaurant) (h : l.Pairwise ratingDesc) :
    SortedByRating (l.map formatRestaurant) := by
  unfold SortedByRating
  rw [List.pairwise_map]
  exact h

theorem slice0_sublist (l : List Restaurant) (e : ℤ) : (slice0 l e).Sublist l := by
  unfold slice0
  split <;> exact List.take_sublist _ _

theorem sendRestaurants_sorted (items : List Restaurant) (limit : LimitParam) :
    SortedByRating (sendRestaurants items limit).views := by
  have hs : (sortByRating items).Pairwise ratingDesc := List.sorted_insertionSort ratingDesc items
  unfold sendRestaurants Response.views
  simp only
  split
  · exact sortedByRating_format _ (hs.sublist (slice0_sublist _ _))
  · exact sortedByRating_format _ hs

theorem clamp_bounds (l : ℤ) : 10 ≤ clamp l 10 100 ∧ clamp l 10 100 ≤ 100 := by
  unfold clamp
  split
  · omega
  · split <;> omega

theorem adjustLimit_supplied (l : ℤ) :
    adjustLimit (.supplied (some l)) = some (clamp l 10 100) := by
  have h := clamp_bounds l
  unfold clamp at h
  simp only [adjustLimit, clamp]
  rw [if_neg]
  omega

theorem sendRestaurants_length (items : List Restaurant) (l : ℤ) :
    ((sendRestaurants items (.supplied (some l))).views.length : ℤ) =
      min (items.length : ℤ) (clamp l 10 100) := by
  have h := clamp_bounds l
  unfold sendRestaurants Response.views
  simp only [adjustLimit_supplied, List.length_map, slice0, sortByRating]
  rw [if_neg (by omega), List.length_take, List.length_insertionSort]
  omega


/-! ## A stored name stays stored until it is deleted -/

theorem postRestaurants_present (USE_CACHE : Bool) (s : State) (restaurant : NewRestaurant)
    (h : (ddbGet s.table restaurant.name).isSome = true) :
    postRestaurants USE_CACHE s restaurant =
      (⟨409, .failure "Restaurant already exists"⟩, s) := by
  obtain ⟨it, hg⟩ := Option.isSome_iff_exists.mp h
  unfold postRestaurants
  split
  · rfl
  · simp [hg]

theorem step_keeps_present (USE_CACHE : Bool) (s : State) (op : Op) (name : String)
    (h : (ddbGet s.table name).isSome = true) (hop : op ≠ Op.delete name) :
    (ddbGet (step USE_CACHE s op).2.table name).isSome = true := by
  cases op with
  | create restaurant =>
    simp only [step, postRestaurants]
    split
    · exact h
    · cases hg : ddbGet s.table restaurant.name with
      | some it => simpa [hg] using h
      | none =>
        simp only [ddbGet_ddbPut]
        split
        · rfl
        · exact h
  | get restaurantName =>
    simp only [step, getRestaurant]
    split
    · exact h
    · split <;> exact h
  | delete restaurantName =>
    have hne : ¬ name = restaurantName := fun e => hop (by rw [e])
    simp only [step, deleteRestaurant_eq, ddbGet_ddbDelete, if_neg hne]
    exact h
  | rate restaurantName rating =>
    simp only [step, postRestaurantsRating]
    cases hg : ddbGet s.table restaurantName with
    | none => exact h
    | some it =>
      simp only [ddbGet_ddbUpdate]
      split
      · simp [hg]
      · exact h
  | byCuisine cuisine limit => exact h
  | byRegion region limit => exact h
  | byRegionCuisine region cuisine limit => exact h

theorem run_keeps_present (USE_CACHE : Bool) (ops : List Op) (s : State) (name : String)
    (h : (ddbGet s.table name).isSome = true) (hops : ∀ op ∈ ops, op ≠ Op.delete name) :
    (ddbGet (run USE_CACHE s ops).2.table name).isSome = true := by
  induction ops generalizing s with
  | nil => exact h
  | cons op ops ih =>
    have h1 := step_keeps_present USE_CACHE s op name h (hops op (List.mem_cons_self _ _))
    exact ih _ h1 (fun o ho => hops o (List.mem_cons_of_mem _ ho))

/-! ## Claims -/

/-- C1: whenever `create` succeeds with 200, a second `create` with the same
name, issued after any finite sequence of requests that holds no delete of
that name (the empty sequence included), is answered 409 "Restaurant already
exists" and changes neither the table nor the cache, with the cache flag on or
off. -/
theorem create_twice_is_duplicate (USE_CACHE : Bool) (s : State)
    (restaurant again : NewRestaurant) (between : List Op)
    (hname : again.name = restaurant.name)
    (h : (postRestaurants USE_CACHE s restaurant).1.status = 200)
    (hbetween : ∀ op ∈ between, op ≠ Op.delete restaurant.name) :
    postRestaurants USE_CACHE
        (run USE_CACHE (postRestaurants USE_CACHE s restaurant).2 between).2 again =
      (⟨409, .failure "Restaurant already exists"⟩,
        (run USE_CACHE (postRestaurants USE_CACHE s restaurant).2 between).2) := by
  apply postRestaurants_present
  rw [hname]
  apply run_keeps_present USE_CACHE between _ restaurant.name _ hbetween
  obtain ⟨_, hs⟩ := postRestaurants_ok USE_CACHE s restaurant h
  rw [hs]
  simp [ddbGet_ddbPut]

theorem create_twice_is_duplicate_witness :
    (postRestaurants true State.empty ⟨"Pasta House", "Italian", "North"⟩).1.status = 200 ∧
      (∀ op ∈ [Op.rate "Pasta House" 4, Op.get "Pasta House",
          Op.create ⟨"Pizza Place", "Italian", "South"⟩, Op.delete "Pizza Place"],
        op ≠ Op.delete "Pasta House") ∧
      postRestaurants true
          (run true (postRestaurants true State.empty ⟨"Pasta House", "Italian", "North"⟩).2
            [Op.rate "Pasta House" 4, Op.get "Pasta House",
              Op.create ⟨"Pizza Place", "Italian", "South"⟩, Op.delete "Pizza Place"]).2
          ⟨"Pasta House", "French", "South"⟩ =
        (⟨409, .failure "Restaurant already exists"⟩,
          (run true (postRestaurants true State.empty ⟨"Pasta House", "Italian", "North"⟩).2
            [Op.rate "Pasta House" 4, Op.get "Pasta House",
              Op.create ⟨"Pizza Place", "Italian", "South"⟩, Op.delete "Pizza Place"]).2) :=
  ⟨by decide, by simp,
    create_twice_is_duplicate true State.empty ⟨"Pasta House", "Italian", "North"⟩
      ⟨"Pasta House", "French", "South"⟩
      [Op.rate "Pasta House" 4, Op.get "Pasta House",
        Op.create ⟨"Pizza Place", "Italian", "South"⟩, Op.delete "Pizza Place"]
      rfl (by decide) (by simp)⟩

/-- C3 as the code has it: `delete(name)` followed at once by `get(name)` is
answered 404 with the cache flag on or off; after the delete the table holds
no item for the name, and the cache holds none when the flag is on, while with
the flag off the cache is left as it was. -/
theorem delete_then_get_not_found (USE_CACHE : Bool) (s : State) (name : String) :
    (getRestaurant USE_CACHE (deleteRestaurant USE_CACHE s name).2 name).1 =
        ⟨404, .failure "Restaurant not found"⟩ ∧
      ddbGet (deleteRestaurant USE_CACHE s name).2.table name = none ∧
      getRestaurants (deleteRestaurant USE_CACHE s name).2.cache name =
        if USE_CACHE then none else getRestaurants s.cache name := by
  rw [deleteRestaurant_eq]
  cases USE_CACHE with
  | true => simp [getRestaurant, getRestaurants_deleteRestaurants, ddbGet_ddbDelete]
  | false => simp [getRestaurant, ddbGet_ddbDelete]

/-- C3 as stated fails: with the cache flag off and a cache that still holds
"Pasta House", the delete leaves that cache entry in place. -/
theorem delete_keeps_cache_entry_when_disabled :
    ¬ ((getRestaurant false
          (deleteRestaurant false
            ⟨[⟨"Pasta House", "Italian", "North", 0, none⟩],
              [("Pasta House", ⟨"Pasta House", "Italian", "North", 0, none⟩)]⟩
            "Pasta House").2 "Pasta House").1.status = 404 ∧
        getRestaurants
          (deleteRestaurant false
            ⟨[⟨"Pasta House", "Italian", "North", 0, none⟩],
              [("Pasta House", ⟨"Pasta House", "Italian", "North", 0, none⟩)]⟩
            "Pasta House").2.cache "Pasta House" = none ∧
        ddbGet
          (deleteRestaurant false
            ⟨[⟨"Pasta House", "Italian", "North", 0, none⟩],
              [("Pasta House", ⟨"Pasta House", "Italian", "North", 0, none⟩)]⟩
            "Pasta House").2.table "Pasta House" = none) := by
  decide

/-- C5 at the failing inputs: deleting "Ghost" from an empty table, and
deleting "Pasta House" a second time in a row, are both answered
200 `{ success: true }`, not 404. -/
theorem delete_missing_answers_200 (USE_CACHE : Bool) :
    ddbGet State.empty.table "Ghost" = none ∧
      (deleteRestaurant USE_CACHE State.empty "Ghost").1 = ⟨200, .success⟩ ∧
      (run USE_CACHE State.empty
          [.create ⟨"Pasta House", "Italian", "North"⟩, .delete "Pasta House",
            .delete "Pasta House"]).1 =
        [⟨200, .success⟩, ⟨200, .success⟩, ⟨200, .success⟩] := by
  cases USE_CACHE <;> decide

/-- C6: with caching enabled, after any finite sequence of requests handled
one at a time from an empty table and an empty cache, every name the cache
holds is held by the table with the very same record. -/
theorem cache_mirrors_table (ops : List Op) (name : String) (cached : Restaurant)
    (h : getRestaurants (run true State.empty ops).2.cache name = some cached) :
    ddbGet (run true State.empty ops).2.table name = some cached := by
  rw [← run_mirror ops State.empty mirror_empty name]
  exact h

theorem cache_mirrors_table_witness :
    getRestaurants
        (run true State.empty
          [.create ⟨"Pasta House", "Italian", "North"⟩, .rate "Pasta House" 4]).2.cache
        "Pasta House" = some ⟨"Pasta House", "Italian", "North", 4, some 1⟩ ∧
      ddbGet
        (run true State.empty
          [.create ⟨"Pasta House", "Italian", "North"⟩, .rate "Pasta House" 4]).2.table
        "Pasta House" = some ⟨"Pasta House", "Italian", "North", 4, some 1⟩ :=
  ⟨by simp [run, step, postRestaurants, postRestaurantsRating, State.empty, getRestaurants,
      addRestaurants, ddbGet, ddbPut, ratingOrZero, numRatingsOrZero],
    cache_mirrors_table _ _ _
      (by simp [run, step, postRestaurants, postRestaurantsRating, State.empty,
        getRestaurants, addRestaurants, ddbGet, ddbPut, ratingOrZero, numRatingsOrZero])⟩

/-- C7: for every table and every single request, the response and the
resulting table with caching disabled (whatever the cache holds) are those
with caching enabled on an empty cache. -/
theorem disabled_equals_cold_cache (t : Table) (c : Cache) (op : Op) :
    (step false ⟨t, c⟩ op).1 = (step true ⟨t, []⟩ op).1 ∧
      (step false ⟨t, c⟩ op).2.table = (step true ⟨t, []⟩ op).2.table := by
  cases op with
  | create restaurant =>
    simp only [step, postRestaurants]
    cases hg : ddbGet t restaurant.name <;> simp [getRestaurants]
  | get restaurantName =>
    simp only [step, getRestaurant]
    cases hg : ddbGet t restaurantName <;> simp [getRestaurants]
  | delete restaurantName => simp [step, deleteRestaurant_eq]
  | rate restaurantName rating =>
    simp only [step, postRestaurantsRating]
    cases hg : ddbGet t restaurantName <;> simp
  | byCuisine cuisine limit => simp [step, getRestaurantsByCuisine]
  | byRegion region limit => simp [step, getRestaurantsByRegion]
  | byRegionCuisine region cuisine limit => simp [step, getRestaurantsByRegionCuisine]

/-- C10: for every finite sequence of requests handled one at a time from an
empty table and an empty cache, the responses and the final table with caching
enabled are those with caching disabled. -/
theorem cache_transparent_on_traces (ops : List Op) :
    (run true State.empty ops).1 = (run false State.empty ops).1 ∧
      (run true State.empty ops).2.table = (run false State.empty ops).2.table :=
  run_cache_transparent ops State.empty State.empty mirror_empty rfl


/-- C2: a single successful `rate` sets `rating` to
`(old_rating * old_numRatings + r) / (old_numRatings + 1)` (an absent count
reads as 0) and `numRatings` to one more; and after a successful create
followed by `k ≥ 1` rate requests `r1..rk` on that name, every one of them is
answered 200 and the item has `numRatings = k` and `rating = (r1 + ... + rk) / k`. -/
theorem rating_is_running_mean :
    (∀ (USE_CACHE : Bool) (s : State) (name : String) (r : ℚ) (item : Restaurant),
      ddbGet s.table name = some item →
        (postRestaurantsRating USE_CACHE s name r).1 = ⟨200, .success⟩ ∧
          ddbGet (postRestaurantsRating USE_CACHE s name r).2.table name =
            some { item with
              rating :=
                (item.rating * (item.numRatings.getD 0 : ℕ) + r) /
                  ((item.numRatings.getD 0 : ℕ) + 1)
              numRatings := some (item.numRatings.getD 0 + 1) }) ∧
    (∀ (USE_CACHE : Bool) (s : State) (restaurant : NewRestaurant) (rs : List ℚ),
      rs ≠ [] → (postRestaurants USE_CACHE s restaurant).1.status = 200 →
        (run USE_CACHE (postRestaurants USE_CACHE s restaurant).2
            (rs.map (Op.rate restaurant.name))).1 = rs.map (fun _ => ⟨200, .success⟩) ∧
          ∃ item,
            ddbGet
                (run USE_CACHE (postRestaurants USE_CACHE s restaurant).2
                  (rs.map (Op.rate restaurant.name))).2.table restaurant.name = some item ∧
              item.numRatings = some rs.length ∧ item.rating = rs.sum / rs.length) := by
  constructor
  · intro USE_CACHE s name r item hg
    rw [postRestaurantsRating_found USE_CACHE s name r item hg]
    simp [ddbGet_ddbUpdate, hg]
  · intro USE_CACHE s restaurant rs hrs hc
    obtain ⟨h1, item, hg, _, _, _, _, _, ht, _, hn⟩ :=
      tracks_run USE_CACHE restaurant rs _ 0 0 (tracks_create USE_CACHE s restaurant hc)
    have hlen : 0 < rs.length := List.length_pos.mpr hrs
    have hq : ((rs.length : ℕ) : ℚ) ≠ 0 := by exact_mod_cast hlen.ne'
    refine ⟨h1, item, hg, ?_, ?_⟩
    · simpa using hn (by omega)
    · rw [eq_div_iff hq]
      simpa using ht

theorem rating_is_running_mean_witness :
    (ddbGet [(⟨"Pasta House", "Italian", "North", 4, some 1⟩ : Restaurant)] "Pasta House" =
        some ⟨"Pasta House", "Italian", "North", 4, some 1⟩ ∧
      ddbGet
          (postRestaurantsRating true
            ⟨[⟨"Pasta House", "Italian", "North", 4, some 1⟩], []⟩ "Pasta House" 2).2.table
          "Pasta House" =
        some ⟨"Pasta House", "Italian", "North", (4 * (1 : ℕ) + 2) / ((1 : ℕ) + 1), some 2⟩) ∧
    (([4, 2] : List ℚ) ≠ [] ∧
      (postRestaurants true State.empty ⟨"Pasta House", "Italian", "North"⟩).1.status = 200 ∧
      ∃ item,
        ddbGet
            (run true (postRestaurants true State.empty ⟨"Pasta House", "Italian", "North"⟩).2
              (([4, 2] : List ℚ).map (Op.rate "Pasta House"))).2.table "Pasta House" =
          some item ∧
        item.numRatings = some 2 ∧ item.rating = ([4, 2] : List ℚ).sum / (2 : ℕ)) :=
  ⟨⟨by decide,
      (rating_is_running_mean.1 true
        ⟨[⟨"Pasta House", "Italian", "North", 4, some 1⟩], []⟩ "Pasta House" 2
        ⟨"Pasta House", "Italian", "North", 4, some 1⟩ (by decide)).2⟩,
    by decide, by decide,
    (rating_is_running_mean.2 true State.empty ⟨"Pasta House", "Italian", "North"⟩ [4, 2]
      (by decide) (by decide)).2⟩

/-- C4: for each of the three query handlers, every table and every supplied
integer limit `L`, the response is 200 with an array of length
`min(N, clamp(L, 10, 100))`, `N` being the number of items the scan filter
yields, sorted by rating in non-increasing order. -/
theorem query_length_and_order (s : State) (region cuisine : String) (L : ℤ) :
    ((getRestaurantsByCuisine s cuisine (.supplied (some L))).1.status = 200 ∧
      ((getRestaurantsByCuisine s cuisine (.supplied (some L))).1.views.length : ℤ) =
        min ((ddbScan s.table (fun it => it.cuisine = cuisine)).length : ℤ) (clamp L 10 100) ∧
      SortedByRating (getRestaurantsByCuisine s cuisine (.supplied (some L))).1.views) ∧
    ((getRestaurantsByRegion s region (.supplied (some L))).1.status = 200 ∧
      ((getRestaurantsByRegion s region (.supplied (some L))).1.views.length : ℤ) =
        min ((ddbScan s.table (fun it => it.region = region)).length : ℤ) (clamp L 10 100) ∧
      SortedByRating (getRestaurantsByRegion s region (.supplied (some L))).1.views) ∧
    ((getRestaurantsByRegionCuisine s region cuisine (.supplied (some L))).1.status = 200 ∧
      ((getRestaurantsByRegionCuisine s region cuisine (.supplied (some L))).1.views.length : ℤ) =
        min ((ddbScan s.table
          (fun it => it.region = region && it.cuisine = cuisine)).length : ℤ) (clamp L 10 100) ∧
      SortedByRating
        (getRestaurantsByRegionCuisine s region cuisine (.supplied (some L))).1.views) :=
  ⟨⟨rfl, sendRestaurants_length _ L, sendRestaurants_sorted _ _⟩,
    ⟨rfl, sendRestaurants_length _ L, sendRestaurants_sorted _ _⟩,
    ⟨rfl, sendRestaurants_length _ L, sendRestaurants_sorted _ _⟩⟩

/-- C8 as the code has it: for every table and every supplied integer limit,
the by-cuisine and the by-region query each return at most `max(limit, 10)`
restaurants (so at most `limit` once `limit ≥ 10`), sorted by rating in
descending order. -/
theorem query_at_most_raised_limit (s : State) (region cuisine : String) (limit : ℤ) :
    (((getRestaurantsByCuisine s cuisine (.supplied (some limit))).1.views.length : ℤ) ≤
        max limit 10 ∧
      SortedByRating (getRestaurantsByCuisine s cuisine (.supplied (some limit))).1.views) ∧
    (((getRestaurantsByRegion s region (.supplied (some limit))).1.views.length : ℤ) ≤
        max limit 10 ∧
      SortedByRating (getRestaurantsByRegion s region (.supplied (some limit))).1.views) := by
  have hc : clamp limit 10 100 ≤ max limit 10 := by
    unfold clamp
    split
    · omega
    · split <;> omega
  refine ⟨⟨?_, sendRestaurants_sorted _ _⟩, ⟨?_, sendRestaurants_sorted _ _⟩⟩
  · have h := sendRestaurants_length (ddbScan s.table (fun it => it.cuisine = cuisine)) limit
    simp only [getRestaurantsByCuisine]
    omega
  · have h := sendRestaurants_length (ddbScan s.table (fun it => it.region = region)) limit
    simp only [getRestaurantsByRegion]
    omega

/-- C8 as stated fails: with two Italian restaurants in the table, the
by-cuisine query with `limit=1` returns both of them. -/
theorem query_exceeds_small_limit :
    ¬ ((getRestaurantsByCuisine
          ⟨[⟨"Pasta House", "Italian", "North", 0, none⟩,
            ⟨"Pizza Place", "Italian", "South", 0, none⟩], []⟩
          "Italian" (.supplied (some 1))).1.views.length ≤ 1) := by
  decide

/-- C9: after a successful create followed by any number of rate requests on
that name (each answered 200), `get(name)` is answered 200 with a view whose
name, cuisine and region are the created ones, and whose rating is 0 when no
rating was submitted, with the cache flag on or off. -/
theorem create_rate_get_round_trip (USE_CACHE : Bool) (s : State)
    (restaurant : NewRestaurant) (rs : List ℚ)
    (h : (postRestaurants USE_CACHE s restaurant).1.status = 200) :
    (run USE_CACHE (postRestaurants USE_CACHE s restaurant).2
        (rs.map (Op.rate restaurant.name))).1 = rs.map (fun _ => ⟨200, .success⟩) ∧
      ∃ rating,
        (getRestaurant USE_CACHE
            (run USE_CACHE (postRestaurants USE_CACHE s restaurant).2
              (rs.map (Op.rate restaurant.name))).2 restaurant.name).1 =
          ⟨200, .restaurant ⟨restaurant.name, restaurant.cuisine, rating, restaurant.region⟩⟩ ∧
        (rs = [] → rating = 0) := by
  obtain ⟨h1, item, hg, hcache, hname, hcu, hre, _, _, h0, _⟩ :=
    tracks_run USE_CACHE restaurant rs _ 0 0 (tracks_create USE_CACHE s restaurant h)
  refine ⟨h1, item.rating, ?_, ?_⟩
  · cases USE_CACHE with
    | true => simp [getRestaurant, hcache rfl, hname, hcu, hre]
    | false => simp [getRestaurant, hg, hname, hcu, hre]
  · intro hrs
    exact h0 (by simp [hrs])

theorem create_rate_get_round_trip_witness :
    (postRestaurants true State.empty ⟨"Pasta House", "Italian", "North"⟩).1.status = 200 ∧
      ∃ rating,
        (getRestaurant true
            (run true (postRestaurants true State.empty ⟨"Pasta House", "Italian", "North"⟩).2
              (([4, 2] : List ℚ).map (Op.rate "Pasta House"))).2 "Pasta House").1 =
          ⟨200, .restaurant ⟨"Pasta House", "Italian", rating, "North"⟩⟩ ∧
        (([4, 2] : List ℚ) = [] → rating = 0) :=
  ⟨by decide,
    (create_rate_get_round_trip true State.empty ⟨"Pasta House", "Italian", "North"⟩ [4, 2]
      (by decide)).2⟩

end RestaurantService
